import Mathlib

/-!
Verification of the profiling computation engine of the IMDb analytics
repository.

The repository has two implementations of the same profiling statistics:

* `notebooks/profiling/imdb_data_profiling.py` — the in-memory (pandas)
  engine: `profile_dataset_manual` computes per-column stats, multi-value
  stats and primary/composite-key validation; `main` iterates the dataset
  catalog, skipping datasets whose source file is missing.
* `notebooks/profiling/imdb_profiling_databricks.py` — the distributed
  (Spark) engine: `profile_columns`, `profile_multi_value`,
  `profile_primary_key`.

This file embeds both engines shallowly:

* Cell values are `Option String` (`none` is the null produced by the
  loader from the `\x5cN` sentinel).
* String primitives used by the code (`str.split`, `str.strip`,
  `str.lower`) are modelled on character lists so that they compute by
  kernel reduction.  The multi-value separator is modelled as a `Char`
  (every configured separator in the source is the single character ",").
* Python floats are modelled as `ℚ`; `round(x, 2)` is modelled by
  `round2`.  Python rounds half to even while `round2` rounds half up;
  the two differ only when the scaled value is exactly a half integer,
  which no statement below exercises.
* Fallible code is modelled in `Except String`: the pandas engine raises
  `ZeroDivisionError` on a zero-row dataset (the `nunique()/len(df)`
  division on line 92 is Python `int / int`; the numpy division for the
  null percentage on line 87 silently yields NaN just before it), and
  raises `KeyError` when a configured key column is absent (`df[pk]`).
-/

/-- Model of Python `str.split(sep)` for a one-character separator, on
character lists: `"".split(",") == [""]`, `"a,".split(",") == ["a",""]`. -/
def charSplit (sep : Char) : List Char → List (List Char)
  | [] => [[]]
  | c :: cs =>
    if c = sep then [] :: charSplit sep cs
    else
      match charSplit sep cs with
      | [] => [[c]]
      | g :: gs => (c :: g) :: gs

/-- Model of `str.split(sep)` / Spark `split(col, sep)` on `String`
(Spark keeps trailing empty tokens, like Python, since it splits with
limit -1). -/
def strSplit (sep : Char) (s : String) : List String :=
  (charSplit sep s.toList).map String.mk

/-- Model of `str.strip()` / Spark `trim`: drop leading and trailing
whitespace. -/
def strTrim (s : String) : String :=
  String.mk (((s.toList.dropWhile Char.isWhitespace).reverse.dropWhile Char.isWhitespace).reverse)

/-- Model of `str.lower()` (ASCII case folding, which covers the
"none"/"unknown" literal checks in the source). -/
def strLower (s : String) : String := String.mk (s.toList.map Char.toLower)

/-- Model of a successful `pd.to_numeric` parse of a string: optional
whitespace padding and sign, then an integer or decimal mantissa with an
optional scientific exponent.  Exotic spellings (`inf`, `nan`) are not
modelled; no statement below depends on the exact grammar. -/
def pdToNumericOk (s : String) : Bool :=
  let cs := (strTrim s).toList
  let cs := match cs with
    | c :: r => if c = '+' ∨ c = '-' then r else c :: r
    | [] => []
  let ds := cs.takeWhile Char.isDigit
  let r := cs.dropWhile Char.isDigit
  let mantissaRest : Option (List Char) :=
    match r with
    | '.' :: r2 =>
      let ds2 := r2.takeWhile Char.isDigit
      if ds.isEmpty && ds2.isEmpty then none else some (r2.dropWhile Char.isDigit)
    | _ => if ds.isEmpty then none else some r
  match mantissaRest with
  | none => false
  | some [] => true
  | some (c :: r2) =>
    if c = 'e' ∨ c = 'E' then
      let r3 := match r2 with
        | c2 :: r4 => if c2 = '+' ∨ c2 = '-' then r4 else c2 :: r4
        | [] => []
      !(r3.takeWhile Char.isDigit).isEmpty && (r3.dropWhile Char.isDigit).isEmpty
    else false

/-- Floor of a rational, computed on the numerator and denominator so it
reduces in the kernel. -/
def rfloor (q : ℚ) : ℤ := Int.fdiv q.num q.den

/-- Model of Python `round(x, 2)` (see the file header for the half-way
caveat). -/
def round2 (q : ℚ) : ℚ := (rfloor (q * 100 + 1 / 2) : ℚ) / 100

/-- Distinct elements of a list in first-seen order.  This is the key
order of the pandas hash table that backs `nunique`, `duplicated` and
`value_counts`. -/
def distinctFirstSeen {α : Type} [DecidableEq α] : List α → List α
  | [] => []
  | x :: xs => x :: distinctFirstSeen (xs.filter (fun y => y ≠ x))
termination_by l => l.length
decreasing_by simp only [List.length_cons]; exact Nat.lt_succ_of_le (List.length_filter_le _ _)

/-- Model of `Series.duplicated().sum()` (and `df.duplicated(subset=ck).sum()`
with tuples): the number of entries that have an equal entry strictly
earlier in the list.  Pandas treats NaN as equal to NaN here, which the
`DecidableEq (Option String)` instance mirrors (`none = none`).  The
recursion counts, for the head, all its later occurrences (they all have
an earlier equal), then recurses on the remaining values. -/
def duplicatedSum {α : Type} [DecidableEq α] : List α → ℕ
  | [] => 0
  | x :: xs => xs.countP (fun y => y = x) + duplicatedSum (xs.filter (fun y => y ≠ x))
termination_by l => l.length
decreasing_by simp only [List.length_cons]; exact Nat.lt_succ_of_le (List.length_filter_le _ _)

/-- Value counts: each distinct element, in first-seen order, paired with
its number of occurrences.  This is the pandas `value_counts` hash-table
content before sorting, and the multiset of Spark `groupBy(col).count()`
rows. -/
def groupCounts {α : Type} [DecidableEq α] (l : List α) : List (α × ℕ) :=
  (distinctFirstSeen l).map (fun v => (v, l.countP (fun y => y = v)))

/-- Stable descending insertion by count: the inserted element goes in
front of the first element whose count is not larger.  Folding this over
a list models a stable descending sort by count, the model used here for
`value_counts()`'s sort. -/
def insertDesc {α : Type} (x : α × ℕ) : List (α × ℕ) → List (α × ℕ)
  | [] => [x]
  | y :: ys => if y.2 ≤ x.2 then x :: y :: ys else y :: insertDesc x ys

/-- Stable descending sort by count (see `insertDesc`). -/
def sortDesc {α : Type} (l : List (α × ℕ)) : List (α × ℕ) := l.foldr insertDesc []

/-- Non-null values of a column, in row order (`Series.dropna()`). -/
def nonNullValues (cells : List (Option String)) : List String := cells.filterMap id

/-- Per-row token counts of the non-null cells of a multi-value column
(`non_null.str.split(sep).str.len()` in pandas,
`F.size(F.split(col, sep))` over the non-null rows in Spark). -/
def tokenCountsPerRow (sep : Char) (cells : List (Option String)) : List ℕ :=
  (nonNullValues cells).map (fun s => (strSplit sep s).length)

/-- All tokens of a multi-value column flattened across its non-null rows
(`non_null.str.split(sep).explode()`; `str.split` never produces an empty
list, so `explode` yields exactly the concatenation of the token lists). -/
def flattenedTokens (sep : Char) (cells : List (Option String)) : List String :=
  ((nonNullValues cells).map (strSplit sep)).flatten

/-- The flattened tokens the Spark engine actually aggregates: it filters
out tokens that are empty after trimming
(`.filter(F.trim(F.col("value")) != "")`), unlike the pandas engine. -/
def sparkKeptTokens (sep : Char) (cells : List (Option String)) : List String :=
  (flattenedTokens sep cells).filter (fun t => strTrim t ≠ "")

/-- Spark duplicate count for a key:
`df.groupBy(key).count().filter(count > 1).count()` — the number of
distinct key values (null keys form a group too) occurring more than
once, not the number of excess rows. -/
def sparkDupGroupCount {α : Type} [DecidableEq α] (vals : List α) : ℕ :=
  ((groupCounts vals).filter (fun g => 1 < g.2)).length

/-- Admissible results of the Spark top-10 computation
`groupBy("value").count().orderBy(F.desc("count")).limit(10)`: Spark
guarantees a descending sort by count but leaves the order of tied groups
unspecified, so any count-descending arrangement of the group counts,
truncated to 10, is a possible output. -/
def IsSparkTop10 (tokens : List String) (res : List (String × ℕ)) : Prop :=
  ∃ full : List (String × ℕ),
    full.Perm (groupCounts tokens) ∧
    full.Pairwise (fun a b => b.2 ≤ a.2) ∧
    res = full.take 10

/-- Numeric-likelihood flag of a column
(`sample = dropna().head(1000); to_numeric(sample).notna().sum() > len(sample) * 0.8`).
The float comparison `count > len * 0.8` is modelled by the exact integer
comparison `5 * count > 4 * len`; the two agree for every `len ≤ 1000`
(the float error of `len * 0.8` is below half an ulp at every multiple
of 5 in range). -/
def likelyNumericFlag (cells : List (Option String)) : Bool :=
  let sample := (nonNullValues cells).take 1000
  decide (5 * sample.countP pdToNumericOk > 4 * sample.length)

/-- Per-column profile record (the `col_stats` dict of
`profile_dataset_manual`; every column is loaded with `dtype=str`, so the
object-dtype-only fields are always present). -/
structure ColStats where
  null_count : ℕ
  null_percentage : ℚ
  unique_count : ℕ
  cardinality_pct : ℚ
  sample_values : List String
  empty_string_count : ℕ
  none_literal_count : ℕ
  unknown_literal_count : ℕ
  likely_numeric : Bool

/-- Per-column profiling of the pandas engine (lines 79-113 of
`imdb_data_profiling.py`).  On a zero-row dataset the code reaches
`nunique() / len(df)` — a Python `int / 0` — and raises
`ZeroDivisionError` (the numpy division of the null-percentage line
yields NaN just before, without raising), so nothing is produced. -/
def profileColumn (cells : List (Option String)) : Except String ColStats :=
  if cells.length = 0 then
    Except.error "ZeroDivisionError"
  else
    Except.ok
      { null_count := cells.countP (fun c => c.isNone)
        null_percentage :=
          round2 ((cells.countP (fun c => c.isNone) : ℚ) / (cells.length : ℚ) * 100)
        unique_count := (distinctFirstSeen (nonNullValues cells)).length
        cardinality_pct :=
          round2 (((distinctFirstSeen (nonNullValues cells)).length : ℚ) / (cells.length : ℚ) * 100)
        sample_values := (nonNullValues cells).take 5
        empty_string_count := (nonNullValues cells).countP (fun s => strTrim s = "")
        none_literal_count := (nonNullValues cells).countP (fun s => strLower (strTrim s) = "none")
        unknown_literal_count :=
          (nonNullValues cells).countP (fun s => strLower (strTrim s) = "unknown")
        likely_numeric := likelyNumericFlag cells }

/-- Multi-value profile record (the `mv_stats` dict). -/
structure MVStats where
  min_values_per_row : ℕ
  max_values_per_row : ℕ
  avg_values_per_row : ℚ
  total_distinct_values : ℕ
  top_10_values : List (String × ℕ)

/-- Multi-value analysis of the pandas engine (lines 118-142): per-row
token counts of the non-null cells, min/max/avg over them (0 defaults for
an empty series), distinct count and stably count-sorted top 10 of the
flattened tokens. -/
def profileMultiValue (sep : Char) (cells : List (Option String)) : MVStats :=
  let value_counts := tokenCountsPerRow sep cells
  let exploded := flattenedTokens sep cells
  { min_values_per_row := match value_counts with | [] => 0 | c :: cs => cs.foldl min c
    max_values_per_row := match value_counts with | [] => 0 | c :: cs => cs.foldl max c
    avg_values_per_row :=
      if value_counts.length = 0 then 0
      else round2 ((value_counts.sum : ℚ) / (value_counts.length : ℚ))
    total_distinct_values := (distinctFirstSeen exploded).length
    top_10_values := (sortDesc (groupCounts exploded)).take 10 }

/-- Key-validation record (the `stats["primary_key"]` dict). -/
structure PKStats where
  null_count : ℕ
  duplicate_count : ℕ
  is_valid_pk : Bool

/-- Single-key validation of the pandas engine (lines 148-156):
`isna().sum()` and `duplicated().sum()` on the key column. -/
def pkSingleStats (vals : List (Option String)) : PKStats :=
  { null_count := vals.countP (fun v => v.isNone)
    duplicate_count := duplicatedSum vals
    is_valid_pk := decide (vals.countP (fun v => v.isNone) = 0 ∧ duplicatedSum vals = 0) }

/-- Composite-key validation of the pandas engine (lines 157-165):
`isna().any(axis=1).sum()` and `duplicated(subset=ck).sum()` on the key
tuples. -/
def pkCompositeStats (tuples : List (List (Option String))) : PKStats :=
  { null_count := tuples.countP (fun t => t.any (fun v => v.isNone))
    duplicate_count := duplicatedSum tuples
    is_valid_pk :=
      decide (tuples.countP (fun t => t.any (fun v => v.isNone)) = 0 ∧ duplicatedSum tuples = 0) }

/-- Dataset configuration (one entry of the `DATASETS` catalog).  The
source stores the separator as the string ","; it is a `Char` here (see
the file header).  Configs without multi-value columns store `None` as
separator in the source; they never read it, so any character works. -/
structure DatasetConfig where
  description : String
  file : String
  primary_key : Option String
  composite_key : Option (List String)
  multi_value_columns : List String
  multi_value_separator : Char

/-- In-memory dataset as handed over by the loader: named columns of
nullable text cells.  A well-formed frame has all columns of equal
length. -/
structure Frame where
  columns : List (String × List (Option String))

/-- Column lookup (`df[c]` when present, `c in df.columns` test). -/
def Frame.col? (f : Frame) (c : String) : Option (List (Option String)) :=
  (f.columns.find? (fun p => p.1 == c)).map Prod.snd

/-- Column names of the frame (`df.columns`). -/
def Frame.colNames (f : Frame) : List String := f.columns.map Prod.fst

/-- Row count (`len(df)`); in a well-formed frame every column has this
length. -/
def Frame.numRows (f : Frame) : ℕ :=
  match f.columns with
  | [] => 0
  | c :: _ => c.2.length

/-- Key tuples of the composite-key columns (`df[ck]` row-wise); `none`
when some configured column is absent, which in the source raises
`KeyError`. -/
def Frame.keyTuples (f : Frame) (ck : List String) : Option (List (List (Option String))) :=
  match ck.mapM f.col? with
  | none => none
  | some cols =>
    some ((List.range f.numRows).map (fun i => cols.map (fun col => col.getD i none)))

/-- Dataset-level profile record (the `stats` dict of
`profile_dataset_manual`). -/
structure DatasetStats where
  dataset : String
  description : String
  file : String
  row_count : ℕ
  column_count : ℕ
  columns : List (String × ColStats)
  multi_value_analysis : List (String × MVStats)
  primary_key : Option PKStats

/-- Per-column loop of `profile_dataset_manual`: profiles the columns in
frame order, propagating the first raised error. -/
def profileColumns : List (String × List (Option String)) → Except String (List (String × ColStats))
  | [] => Except.ok []
  | (c, cells) :: rest =>
    match profileColumn cells with
    | Except.error e => Except.error e
    | Except.ok s =>
      match profileColumns rest with
      | Except.error e => Except.error e
      | Except.ok t => Except.ok ((c, s) :: t)

/-- The pandas engine's `profile_dataset_manual(dataset_name, df, config)`:
per-column stats in column order, then multi-value analysis of each
configured column that is present (absent ones silently skipped), then
key validation — `df[pk]` (or `df[ck]`) raises `KeyError` when a
configured key column is absent, aborting the whole dataset's profile. -/
def profile_dataset_manual (dataset_name : String) (f : Frame) (cfg : DatasetConfig) :
    Except String DatasetStats :=
  match profileColumns f.columns with
  | Except.error e => Except.error e
  | Except.ok colProfiles =>
    let mv := cfg.multi_value_columns.filterMap
      (fun c => (f.col? c).map
        (fun cells => (c, profileMultiValue cfg.multi_value_separator cells)))
    let base : DatasetStats :=
      { dataset := dataset_name
        description := cfg.description
        file := cfg.file
        row_count := f.numRows
        column_count := f.columns.length
        columns := colProfiles
        multi_value_analysis := mv
        primary_key := none }
    match cfg.primary_key with
    | some pk =>
      match f.col? pk with
      | none => Except.error ("KeyError: " ++ pk)
      | some cells => Except.ok { base with primary_key := some (pkSingleStats cells) }
    | none =>
      match cfg.composite_key with
      | some ck =>
        match f.keyTuples ck with
        | none => Except.error "KeyError: composite key column missing"
        | some tuples => Except.ok { base with primary_key := some (pkCompositeStats tuples) }
      | none => Except.ok base

/-- The catalog loop of `main()` (lines 352-364): for each catalog entry
ask the loader for the frame; a missing source (`load_dataset` returning
`None`) is skipped and the run continues; a loaded frame is profiled and
accumulated under its dataset name, and an exception from profiling
propagates (there is no try/except around the loop). -/
def runProfiling (loader : String → DatasetConfig → Option Frame) :
    List (String × DatasetConfig) → Except String (List (String × DatasetStats))
  | [] => Except.ok []
  | (n, cfg) :: rest =>
    match loader n cfg with
    | none => runProfiling loader rest
    | some f =>
      match profile_dataset_manual n f cfg with
      | Except.error e => Except.error e
      | Except.ok s =>
        match runProfiling loader rest with
        | Except.error e => Except.error e
        | Except.ok t => Except.ok ((n, s) :: t)

/-- The collection the catalog loop accumulates when nothing raises:
exactly the successfully loaded datasets, keyed by name, in catalog
order. -/
def loadedProfiles (loader : String → DatasetConfig → Option Frame)
    (catalog : List (String × DatasetConfig)) : List (String × DatasetStats) :=
  catalog.filterMap (fun e =>
    (loader e.1 e.2).bind (fun f => (profile_dataset_manual e.1 f e.2).toOption.map (fun s => (e.1, s))))

/-- Modelled from the spec: the duplicate count the specification
prescribes for key validation — rows beyond the first occurrence of each
key value, counting only rows whose key is fully non-null (the source
instead also counts null keys; see `pkSingleStats`). -/
def specDuplicateCount (vals : List (Option String)) : ℕ :=
  duplicatedSum (nonNullValues vals)

/-!
Supporting lemmas.
-/

/-- The kernel-computable floor `rfloor` agrees with `Int.floor`. -/
theorem rfloor_eq_floor (q : ℚ) : rfloor q = ⌊q⌋ := by
  rw [rfloor, Rat.floor_def, Int.fdiv_eq_ediv _ (by exact_mod_cast q.den_pos.le)]

/-- Rounding to two decimals is the identity on rationals whose
hundredfold is an integer. -/
theorem round2_of_int (q : ℚ) (n : ℤ) (h : q * 100 = (n : ℚ)) : round2 q = q := by
  rw [round2, rfloor_eq_floor, h]
  have h2 : ⌊(n : ℚ) + 1 / 2⌋ = n := by
    rw [add_comm, Int.floor_add_int]
    norm_num
  rw [h2]
  field_simp at h ⊢
  linarith [h]

/-- Membership in the first-seen distinct list is membership in the list. -/
theorem mem_distinctFirstSeen {α : Type} [DecidableEq α] (l : List α) (a : α) :
    a ∈ distinctFirstSeen l ↔ a ∈ l := by
  induction l using distinctFirstSeen.induct with
  | case1 => simp [distinctFirstSeen]
  | case2 x xs ih =>
    rw [distinctFirstSeen]
    by_cases h : a = x
    · subst h; simp
    · simp only [List.mem_cons, ih, List.mem_filter]
      constructor
      · rintro (rfl | ⟨h1, _⟩)
        · exact Or.inl rfl
        · exact Or.inr h1
      · rintro (rfl | h1)
        · exact Or.inl rfl
        · exact Or.inr ⟨h1, by simpa using h⟩

/-- Occurrences of a value plus the length of the list with that value
filtered out give the length of the list. -/
theorem countP_eq_add_filter_ne {α : Type} [DecidableEq α] (x : α) (xs : List α) :
    xs.countP (fun y => y = x) + (xs.filter (fun y => y ≠ x)).length = xs.length := by
  induction xs with
  | nil => rfl
  | cons a xs ih =>
    by_cases h : a = x <;> simp [List.countP_cons, List.filter_cons, h, ne_eq] at ih ⊢ <;> omega

/-- Pandas' duplicate count is the list length minus the number of
distinct values (`none` counting as a value): every row beyond the first
of each distinct value is flagged. -/
theorem duplicatedSum_add_distinct {α : Type} [DecidableEq α] (l : List α) :
    duplicatedSum l + (distinctFirstSeen l).length = l.length := by
  induction l using distinctFirstSeen.induct with
  | case1 => simp [duplicatedSum, distinctFirstSeen]
  | case2 x xs ih =>
    rw [distinctFirstSeen, duplicatedSum, List.length_cons, List.length_cons]
    have := countP_eq_add_filter_ne x xs
    omega

/-- Filtering out `none` commutes with extracting the non-null values. -/
theorem filterMap_id_filter_ne_none {α : Type} [DecidableEq α] (l : List (Option α)) :
    (l.filter (fun y => y ≠ none)).filterMap id = l.filterMap id := by
  induction l with
  | nil => rfl
  | cons x xs ih =>
    simp only [ne_eq, decide_not] at ih ⊢
    cases x <;> simp [List.filter_cons, ih]

/-- Filtering out a non-null value commutes with extracting the non-null
values. -/
theorem filterMap_id_filter_ne_some {α : Type} [DecidableEq α] (a : α) (l : List (Option α)) :
    (l.filter (fun y => y ≠ some a)).filterMap id = (l.filterMap id).filter (fun y => y ≠ a) := by
  induction l with
  | nil => rfl
  | cons x xs ih =>
    simp only [ne_eq, decide_not] at ih ⊢
    cases x with
    | none => simp [List.filter_cons, ih]
    | some b => by_cases h : b = a <;> simp [List.filter_cons, h, ih]

/-- On a list without nulls, the distinct count equals the distinct count
of its unwrapped values. -/
theorem distinct_length_no_none {α : Type} [DecidableEq α] (l : List (Option α)) :
    none ∉ l → (distinctFirstSeen l).length = (distinctFirstSeen (l.filterMap id)).length := by
  induction l using distinctFirstSeen.induct with
  | case1 => intro _; simp [distinctFirstSeen]
  | case2 x xs ih =>
    intro h
    cases x with
    | none => exact absurd (List.mem_cons_self _ _) h
    | some b =>
      rw [distinctFirstSeen]
      have hfm : (some b :: xs).filterMap id = b :: xs.filterMap id := by simp
      rw [hfm, distinctFirstSeen, List.length_cons, List.length_cons,
        ← filterMap_id_filter_ne_some b xs]
      have hnn : none ∉ xs.filter (fun y => y ≠ some b) := fun hm =>
        h (List.mem_cons_of_mem _ (List.mem_filter.mp hm).1)
      rw [ih hnn]

/-- On a list containing a null, the distinct count is one more than the
distinct count of the non-null values: `none` forms one extra distinct
key. -/
theorem distinct_length_with_none {α : Type} [DecidableEq α] (l : List (Option α)) :
    none ∈ l → (distinctFirstSeen l).length = (distinctFirstSeen (l.filterMap id)).length + 1 := by
  induction l using distinctFirstSeen.induct with
  | case1 => intro h; cases h
  | case2 x xs ih =>
    intro h
    cases x with
    | none =>
      rw [distinctFirstSeen, List.length_cons]
      have h1 : (none :: xs).filterMap id = xs.filterMap id := by simp
      rw [h1, ← filterMap_id_filter_ne_none xs]
      have hnn : none ∉ xs.filter (fun y => y ≠ none) := by simp [List.mem_filter]
      rw [distinct_length_no_none _ hnn]
    | some b =>
      have hx : none ∈ xs := by
        rcases List.mem_cons.mp h with h1 | h1
        · cases h1
        · exact h1
      rw [distinctFirstSeen]
      have hfm : (some b :: xs).filterMap id = b :: xs.filterMap id := by simp
      rw [hfm, distinctFirstSeen, List.length_cons, List.length_cons,
        ← filterMap_id_filter_ne_some b xs]
      have hmem : none ∈ xs.filter (fun y => y ≠ some b) := by
        rw [List.mem_filter]
        exact ⟨hx, by simp⟩
      rw [ih hmem]

/-- Null and non-null cells partition a column. -/
theorem length_filterMap_id_add_countP {α : Type} (l : List (Option α)) :
    (l.filterMap id).length + l.countP (fun v => v.isNone) = l.length := by
  induction l with
  | nil => rfl
  | cons x xs ih => cases x <;> simp [List.countP_cons, ih] <;> omega

/-- Position order of two kept elements of a filtered list reflects their
position order in the original list. -/
theorem indexOf_lt_of_filter_indexOf_lt {α : Type} [DecidableEq α] (p : α → Bool) (l : List α) :
    ∀ a b, a ∈ l.filter p → b ∈ l.filter p →
      (l.filter p).indexOf a < (l.filter p).indexOf b → l.indexOf a < l.indexOf b := by
  induction l with
  | nil => intro a b ha; simp at ha
  | cons x l ih =>
    intro a b ha hb hlt
    by_cases hx : p x
    · rw [List.filter_cons_of_pos hx] at ha hb hlt
      by_cases hax : a = x
      · subst hax
        by_cases hbx : b = a
        · subst hbx; simp at hlt
        · rw [List.indexOf_cons_self]
          rw [List.indexOf_cons_ne _ (fun he => hbx he.symm)]
          exact Nat.succ_pos _
      · by_cases hbx : b = x
        · subst hbx
          rw [List.indexOf_cons_self] at hlt
          exact absurd hlt (Nat.not_lt_zero _)
        · rw [List.indexOf_cons_ne _ (fun he => hax he.symm),
            List.indexOf_cons_ne _ (fun he => hbx he.symm)] at hlt
          have ha2 : a ∈ l.filter p := by
            rcases List.mem_cons.mp ha with h1 | h1
            · exact absurd h1 hax
            · exact h1
          have hb2 : b ∈ l.filter p := by
            rcases List.mem_cons.mp hb with h1 | h1
            · exact absurd h1 hbx
            · exact h1
          rw [List.indexOf_cons_ne _ (fun he => hax he.symm),
            List.indexOf_cons_ne _ (fun he => hbx he.symm)]
          exact Nat.succ_lt_succ (ih a b ha2 hb2 (Nat.lt_of_succ_lt_succ hlt))
    · rw [List.filter_cons_of_neg hx] at ha hb hlt
      have hax : a ≠ x := fun he => hx (by rw [← he]; exact List.of_mem_filter ha)
      have hbx : b ≠ x := fun he => hx (by rw [← he]; exact List.of_mem_filter hb)
      rw [List.indexOf_cons_ne _ (fun he => hax he.symm),
        List.indexOf_cons_ne _ (fun he => hbx he.symm)]
      exact Nat.succ_lt_succ (ih a b ha hb hlt)

/-- The first-seen distinct list is ordered by position of first
occurrence in the original list. -/
theorem distinctFirstSeen_pairwise_indexOf {α : Type} [DecidableEq α] (l : List α) :
    (distinctFirstSeen l).Pairwise (fun a b => l.indexOf a < l.indexOf b) := by
  induction l using distinctFirstSeen.induct with
  | case1 => simp [distinctFirstSeen]
  | case2 x xs ih =>
    rw [distinctFirstSeen]
    refine List.Pairwise.cons ?_ ?_
    · intro b hb
      have hbf : b ∈ xs.filter (fun y => y ≠ x) := (mem_distinctFirstSeen _ _).mp hb
      have hbne : b ≠ x := by simpa using List.of_mem_filter hbf
      rw [List.indexOf_cons_self, List.indexOf_cons_ne _ (fun he => hbne he.symm)]
      exact Nat.succ_pos _
    · refine ih.imp_of_mem ?_
      intro a b ha hb hlt
      have haf : a ∈ xs.filter (fun y => y ≠ x) := (mem_distinctFirstSeen _ _).mp ha
      have hbf : b ∈ xs.filter (fun y => y ≠ x) := (mem_distinctFirstSeen _ _).mp hb
      have hane : a ≠ x := by simpa using List.of_mem_filter haf
      have hbne : b ≠ x := by simpa using List.of_mem_filter hbf
      have h2 : xs.indexOf a < xs.indexOf b :=
        indexOf_lt_of_filter_indexOf_lt _ xs a b haf hbf hlt
      rw [List.indexOf_cons_ne _ (fun he => hane he.symm),
        List.indexOf_cons_ne _ (fun he => hbne he.symm)]
      exact Nat.succ_lt_succ h2

/-- Unfolding the fold in `sortDesc`. -/
theorem sortDesc_cons {α : Type} (a : α × ℕ) (l : List (α × ℕ)) :
    sortDesc (a :: l) = insertDesc a (sortDesc l) := rfl

/-- Membership after a descending insertion. -/
theorem mem_insertDesc {α : Type} (x z : α × ℕ) (l : List (α × ℕ)) :
    z ∈ insertDesc x l ↔ z = x ∨ z ∈ l := by
  induction l with
  | nil => simp [insertDesc]
  | cons y ys ih =>
    rw [insertDesc]
    by_cases h : y.2 ≤ x.2
    · rw [if_pos h]; simp
    · rw [if_neg h]
      simp only [List.mem_cons, ih]
      tauto

/-- Membership is preserved by the descending sort. -/
theorem mem_sortDesc {α : Type} (z : α × ℕ) (l : List (α × ℕ)) :
    z ∈ sortDesc l ↔ z ∈ l := by
  induction l with
  | nil => simp [sortDesc]
  | cons a l ih =>
    rw [sortDesc_cons, mem_insertDesc, ih, List.mem_cons]

/-- Inserting an element whose rank is below every rank in a list that is
sorted by descending count with rank-increasing ties keeps that shape. -/
theorem pairwise_insertDesc {α : Type} (rank : α × ℕ → ℕ) (x : α × ℕ) (l : List (α × ℕ))
    (hp : l.Pairwise (fun a b => b.2 < a.2 ∨ (a.2 = b.2 ∧ rank a < rank b)))
    (hr : ∀ z ∈ l, rank x < rank z) :
    (insertDesc x l).Pairwise (fun a b => b.2 < a.2 ∨ (a.2 = b.2 ∧ rank a < rank b)) := by
  induction l with
  | nil => simp [insertDesc]
  | cons y ys ih =>
    obtain ⟨hy_all, hp_ys⟩ := List.pairwise_cons.mp hp
    rw [insertDesc]
    by_cases h : y.2 ≤ x.2
    · rw [if_pos h]
      refine List.Pairwise.cons ?_ hp
      intro z hz
      have hz2 : z.2 ≤ x.2 := by
        rcases List.mem_cons.mp hz with rfl | hz'
        · exact h
        · rcases hy_all z hz' with h1 | ⟨h1, _⟩
          · exact le_trans (Nat.le_of_lt h1) h
          · exact le_trans (Nat.le_of_eq h1.symm) h
      rcases Nat.lt_or_ge z.2 x.2 with hlt | hge
      · exact Or.inl hlt
      · exact Or.inr ⟨Nat.le_antisymm hge hz2, hr z hz⟩
    · rw [if_neg h]
      have hx2 : x.2 < y.2 := Nat.lt_of_not_le h
      refine List.Pairwise.cons ?_ (ih hp_ys (fun z hz => hr z (List.mem_cons_of_mem _ hz)))
      intro z hz
      rcases (mem_insertDesc _ _ _).mp hz with rfl | hz'
      · exact Or.inl hx2
      · exact hy_all z hz'

/-- Sorting a rank-increasing list by descending count produces a list
sorted by descending count with ties in rank (first-seen) order: the
insertion sort is stable. -/
theorem pairwise_sortDesc {α : Type} (rank : α × ℕ → ℕ) (l : List (α × ℕ))
    (hp : l.Pairwise (fun a b => rank a < rank b)) :
    (sortDesc l).Pairwise (fun a b => b.2 < a.2 ∨ (a.2 = b.2 ∧ rank a < rank b)) := by
  induction l with
  | nil => simp [sortDesc]
  | cons a l ih =>
    obtain ⟨ha_all, hp_l⟩ := List.pairwise_cons.mp hp
    rw [sortDesc_cons]
    exact pairwise_insertDesc rank a _ (ih hp_l)
      (fun z hz => ha_all z ((mem_sortDesc _ _).mp hz))

/-- Every entry of the value-counts list pairs a token with its exact
occurrence count. -/
theorem mem_groupCounts_count {α : Type} [DecidableEq α] (l : List α) (p : α × ℕ)
    (hp : p ∈ groupCounts l) : p.2 = l.countP (fun y => y = p.1) := by
  rw [groupCounts] at hp
  obtain ⟨v, _, rfl⟩ := List.mem_map.mp hp
  rfl

/-- The Spark duplicate-group count counts the distinct key values with
more than one occurrence. -/
theorem sparkDupGroupCount_eq {α : Type} [DecidableEq α] (vals : List α) :
    sparkDupGroupCount vals =
      ((distinctFirstSeen vals).filter (fun v => 1 < vals.countP (fun y => y = v))).length := by
  rw [sparkDupGroupCount, groupCounts, List.filter_map, List.length_map]
  rfl

/-- A filter dropping the elements that satisfy a predicate, together
with the count of those elements, accounts for the whole list. -/
theorem length_filter_not_add_countP {α : Type} (p : α → Prop) [DecidablePred p] (l : List α) :
    (l.filter (fun a => ¬ p a)).length + l.countP (fun a => p a) = l.length := by
  induction l with
  | nil => rfl
  | cons x xs ih =>
    simp only [decide_not] at ih ⊢
    by_cases h : p x <;> simp [List.filter_cons, List.countP_cons, h] at ih ⊢ <;> omega

/-- Looking up a column name that is not among the frame's columns fails
(`df[pk]` would raise `KeyError`). -/
theorem Frame.col_eq_none {f : Frame} {c : String} (h : c ∉ f.colNames) : f.col? c = none := by
  have hfind : f.columns.find? (fun p => p.1 == c) = none := by
    rw [List.find?_eq_none]
    intro x hx h2
    apply h
    have h3 : x.1 = c := by simpa using h2
    rw [Frame.colNames, ← h3]
    exact List.mem_map_of_mem Prod.fst hx
  rw [Frame.col?, hfind]
  rfl

/-- Column profiling succeeds exactly on nonempty columns. -/
theorem profileColumn_ok (cells : List (Option String)) (h : cells ≠ []) :
    ∃ s, profileColumn cells = Except.ok s := by
  unfold profileColumn
  rw [if_neg (by simpa using h)]
  exact ⟨_, rfl⟩

/-- The per-column loop succeeds when every column is nonempty. -/
theorem profileColumns_ok (cols : List (String × List (Option String)))
    (h : ∀ p ∈ cols, p.2 ≠ ([] : List (Option String))) :
    ∃ t, profileColumns cols = Except.ok t := by
  induction cols with
  | nil => exact ⟨[], rfl⟩
  | cons p rest ih =>
    obtain ⟨c, cells⟩ := p
    obtain ⟨s, hs⟩ := profileColumn_ok cells (h (c, cells) (List.mem_cons_self _ _))
    obtain ⟨t, ht⟩ := ih (fun q hq => h q (List.mem_cons_of_mem _ hq))
    exact ⟨(c, s) :: t, by simp only [profileColumns, hs, ht]⟩

/-- When every loaded dataset profiles without error, the catalog loop
returns exactly the profiles of the loaded datasets, keyed by dataset
name, in catalog order. -/
theorem runProfiling_ok (loader : String → DatasetConfig → Option Frame)
    (catalog : List (String × DatasetConfig))
    (h : ∀ e ∈ catalog, ∀ f, loader e.1 e.2 = some f →
      (profile_dataset_manual e.1 f e.2).isOk = true) :
    runProfiling loader catalog = Except.ok (loadedProfiles loader catalog) := by
  induction catalog with
  | nil => rfl
  | cons e rest ih =>
    obtain ⟨n, cfg⟩ := e
    have hrest := ih (fun q hq => h q (List.mem_cons_of_mem _ hq))
    cases hl : loader n cfg with
    | none =>
      simp only [runProfiling, hl, hrest]
      congr 1
      simp [loadedProfiles, List.filterMap_cons, hl]
    | some f =>
      have hok := h (n, cfg) (List.mem_cons_self _ _) f hl
      cases hp : profile_dataset_manual n f cfg with
      | error err =>
        rw [hp] at hok
        simp [Except.isOk, Except.toBool] at hok
      | ok s =>
        simp only [runProfiling, hl, hp, hrest]
        congr 1
        simp [loadedProfiles, List.filterMap_cons, hl, hp, Except.toOption]

/-!
Claim theorems.
-/

/-- C1: the claim says a zero-row dataset reports every null percentage
as the fixed default 0.0 with no divide-by-zero fault.  The code instead
raises: evaluating the engine on a dataset with one column and zero rows
reaches the `nunique() / len(df)` division with `len(df) = 0` and aborts
with `ZeroDivisionError` (the null-percentage line just before silently
produces numpy NaN, not 0.0), so no profile is produced at all. -/
theorem c1_zero_rows_divide_by_zero :
    profile_dataset_manual "empty" ⟨[("c", [])]⟩
      ⟨"an empty dataset", "empty.tsv", none, none, [], ','⟩ =
      Except.error "ZeroDivisionError" := rfl

/-- C2 (amended): in the in-memory engine the sum of the per-row token
counts equals the number of flattened tokens used downstream; in the
distributed engine the flattened token count falls short of that sum by
exactly the number of tokens that are empty after trimming, which its
`explode` pipeline filters out. -/
theorem c2_token_count_conservation (sep : Char) (cells : List (Option String)) :
    (tokenCountsPerRow sep cells).sum = (flattenedTokens sep cells).length ∧
    (sparkKeptTokens sep cells).length +
        (flattenedTokens sep cells).countP (fun t => strTrim t = "") =
      (tokenCountsPerRow sep cells).sum := by
  have h1 : (tokenCountsPerRow sep cells).sum = (flattenedTokens sep cells).length := by
    rw [tokenCountsPerRow, flattenedTokens, List.length_flatten, List.map_map]
    rfl
  refine ⟨h1, ?_⟩
  rw [h1, sparkKeptTokens]
  exact length_filter_not_add_countP (fun t => strTrim t = "") (flattenedTokens sep cells)

/-- C2 (counterexample): for the cell `"a,"` with separator `,`, the
per-row token counts sum to 2 but the distributed engine keeps only one
flattened token — the trailing empty token is dropped, so the claimed
equality fails there. -/
theorem c2_spark_drops_empty_tokens :
    (tokenCountsPerRow ',' [some "a,"]).sum = 2 ∧
    (sparkKeptTokens ',' [some "a,"]).length = 1 ∧
    (sparkKeptTokens ',' [some "a,"]).length ≠ (tokenCountsPerRow ',' [some "a,"]).sum :=
  ⟨by decide, by decide, by decide⟩

/-- C3 (amended): the in-memory engine's duplicate count is the number of
rows minus the number of distinct key values or key tuples, with a null
key treated as an ordinary key value (so it is not restricted to fully
non-null rows); the distributed engine's duplicate count is the number of
distinct key values (null keys grouped as a value) occurring more than
once, not the number of excess rows. -/
theorem c3_duplicate_count_characterization (vals : List (Option String))
    (tuples : List (List (Option String))) :
    ((pkSingleStats vals).duplicate_count + (distinctFirstSeen vals).length = vals.length ∧
      (pkCompositeStats tuples).duplicate_count + (distinctFirstSeen tuples).length =
        tuples.length) ∧
    (sparkDupGroupCount vals =
        ((distinctFirstSeen vals).filter (fun v => 1 < vals.countP (fun y => y = v))).length ∧
      sparkDupGroupCount tuples =
        ((distinctFirstSeen tuples).filter
          (fun t => 1 < tuples.countP (fun y => y = t))).length) :=
  ⟨⟨duplicatedSum_add_distinct vals, duplicatedSum_add_distinct tuples⟩,
    sparkDupGroupCount_eq vals, sparkDupGroupCount_eq tuples⟩

/-- C3 (counterexample): on a key column holding two null cells both
engines report one duplicate, while the claim — which counts only rows
with a fully non-null key — predicts zero. -/
theorem c3_null_keys_counted_as_duplicates :
    (pkSingleStats [none, none]).duplicate_count = 1 ∧
    sparkDupGroupCount ([none, none] : List (Option String)) = 1 ∧
    specDuplicateCount [none, none] = 0 ∧
    (pkSingleStats [none, none]).duplicate_count ≠ specDuplicateCount [none, none] := by
  refine ⟨?_, ?_, ?_, ?_⟩
  · simp [pkSingleStats, duplicatedSum]
  · simp [sparkDupGroupCount, groupCounts, distinctFirstSeen]
  · simp [specDuplicateCount, nonNullValues, duplicatedSum]
  · simp [pkSingleStats, specDuplicateCount, nonNullValues, duplicatedSum]

/-- C9: in the in-memory engine's single-key validation, rows with a null
key are eligible duplicates of each other: with `k ≥ 2` null-key rows,
all `k` enter the null count and `k - 1` of them enter the duplicate
count on top of the duplicates among non-null keys. -/
theorem c9_null_keys_in_both_tallies (vals : List (Option String)) (k : ℕ)
    (hk : k = vals.countP (fun v => v.isNone)) (h2 : 2 ≤ k) :
    (pkSingleStats vals).null_count = k ∧
    (pkSingleStats vals).duplicate_count = duplicatedSum (nonNullValues vals) + (k - 1) := by
  subst hk
  refine ⟨rfl, ?_⟩
  have hmem : none ∈ vals := by
    have hpos : 0 < vals.countP (fun v => v.isNone) := by omega
    obtain ⟨v, hv, hp⟩ := List.countP_pos_iff.mp hpos
    cases v with
    | none => exact hv
    | some b => simp at hp
  have hd1 := duplicatedSum_add_distinct vals
  have hd2 := duplicatedSum_add_distinct (vals.filterMap id)
  have hsplit := distinct_length_with_none vals hmem
  have hlen := length_filterMap_id_add_countP vals
  show duplicatedSum vals =
    duplicatedSum (vals.filterMap id) + (vals.countP (fun v => v.isNone) - 1)
  omega

/-- C9 (witness): the key column `[some "x", none, none]` has two null
keys, null count 2 and duplicate count 1 = 0 + (2 - 1). -/
theorem c9_witness :
    (2 = ([some "x", none, none] : List (Option String)).countP (fun v => v.isNone)) ∧
    2 ≤ 2 ∧
    ((pkSingleStats [some "x", none, none]).null_count = 2 ∧
      (pkSingleStats [some "x", none, none]).duplicate_count =
        duplicatedSum (nonNullValues [some "x", none, none]) + (2 - 1)) :=
  ⟨by decide, by decide, c9_null_keys_in_both_tallies _ 2 (by decide) (by decide)⟩

/-- C5 (counterexample): in Scenario A the empty string is a non-null
value, so `nunique()` counts it: the engine reports 3 distinct values,
not the claimed 2. -/
theorem c5_empty_string_is_distinct :
    (profileColumn [some "a", some "b", none, some "a", some ""]).map ColStats.unique_count =
      Except.ok 3 ∧
    (Except.ok 3 : Except String ℕ) ≠ Except.ok 2 := by
  constructor
  · simp [profileColumn, nonNullValues, distinctFirstSeen, Except.map]
  · simp

/-- C5 (amended): for the 5-row column `["a", "b", null, "a", ""]` the
engine reports null_count 1, null_percentage 20.00, unique_count 3 (the
empty string is a distinct non-null value), cardinality 60.00,
empty_string_count 1 and sample_values `["a", "b", "a", ""]` (the first
five non-null values include the empty string). -/
theorem c5_scenario_a_profile :
    (profileColumn [some "a", some "b", none, some "a", some ""]).map ColStats.null_count =
      Except.ok 1 ∧
    (profileColumn [some "a", some "b", none, some "a", some ""]).map ColStats.null_percentage =
      Except.ok 20 ∧
    (profileColumn [some "a", some "b", none, some "a", some ""]).map ColStats.unique_count =
      Except.ok 3 ∧
    (profileColumn [some "a", some "b", none, some "a", some ""]).map ColStats.cardinality_pct =
      Except.ok 60 ∧
    (profileColumn [some "a", some "b", none, some "a", some ""]).map
        ColStats.empty_string_count = Except.ok 1 ∧
    (profileColumn [some "a", some "b", none, some "a", some ""]).map ColStats.sample_values =
      Except.ok ["a", "b", "a", ""] := by
  refine ⟨rfl, ?_, ?_, ?_, rfl, rfl⟩
  · show Except.ok (round2 ((1 : ℚ) / 5 * 100)) = Except.ok 20
    rw [round2_of_int _ 2000 (by norm_num)]
    norm_num
  · simp [profileColumn, nonNullValues, distinctFirstSeen, Except.map]
  · have hd : distinctFirstSeen (nonNullValues [some "a", some "b", none, some "a", some ""]) =
        ["a", "b", ""] := by
      simp [nonNullValues, distinctFirstSeen]
    show (Except.ok (round2
        (((distinctFirstSeen
          (nonNullValues [some "a", some "b", none, some "a", some ""])).length : ℚ)
          / 5 * 100)) : Except String ℚ) = Except.ok 60
    rw [hd]
    show (Except.ok (round2 ((3 : ℚ) / 5 * 100)) : Except String ℚ) = Except.ok 60
    rw [round2_of_int _ 6000 (by norm_num)]
    norm_num

/-- C6: a produced ColumnProfile is flagged likely-numeric exactly when
strictly more than 80% of the sample of at most the first 1000 non-null
values (in row order) parse as a number. -/
theorem c6_numeric_likelihood (cells : List (Option String)) (s : ColStats)
    (h : profileColumn cells = Except.ok s) :
    (s.likely_numeric = true ↔
      ((((nonNullValues cells).take 1000).countP pdToNumericOk : ℚ) >
        4 / 5 * ((nonNullValues cells).take 1000).length)) := by
  have hs : s.likely_numeric = likelyNumericFlag cells := by
    unfold profileColumn at h
    by_cases hz : cells.length = 0
    · rw [if_pos hz] at h; cases h
    · rw [if_neg hz] at h
      injection h with h
      rw [← h]
  rw [hs]
  simp only [likelyNumericFlag, decide_eq_true_eq, gt_iff_lt]
  rw [div_mul_eq_mul_div, div_lt_iff₀ (by norm_num : (0 : ℚ) < 5)]
  constructor
  · intro h1
    exact_mod_cast (show 4 * ((nonNullValues cells).take 1000).length <
      ((nonNullValues cells).take 1000).countP pdToNumericOk * 5 by omega)
  · intro h1
    have h2 : 4 * ((nonNullValues cells).take 1000).length <
        ((nonNullValues cells).take 1000).countP pdToNumericOk * 5 := by exact_mod_cast h1
    omega

/-- Profile of the one-row column `["1"]`, spelled as the engine builds
it (used by the witness of the numeric-likelihood theorem). -/
def oneNumericRowProfile : ColStats :=
  { null_count := 0
    null_percentage := round2 ((0 : ℚ) / 1 * 100)
    unique_count := (distinctFirstSeen (nonNullValues [some "1"])).length
    cardinality_pct :=
      round2 (((distinctFirstSeen (nonNullValues [some "1"])).length : ℚ) / 1 * 100)
    sample_values := ["1"]
    empty_string_count := 0
    none_literal_count := 0
    unknown_literal_count := 0
    likely_numeric := likelyNumericFlag [some "1"] }

/-- C6 (witness): the one-row column `["1"]` profiles successfully and
its flag satisfies the 80% characterization. -/
theorem c6_witness :
    profileColumn [some "1"] = Except.ok oneNumericRowProfile ∧
    (oneNumericRowProfile.likely_numeric = true ↔
      ((((nonNullValues [some "1"]).take 1000).countP pdToNumericOk : ℚ) >
        4 / 5 * ((nonNullValues [some "1"]).take 1000).length)) :=
  ⟨rfl, c6_numeric_likelihood [some "1"] oneNumericRowProfile rfl⟩

/-- C10: a present multi-value column whose cells are all null yields a
MultiValueProfile with all statistics zero and an empty top-10 list, with
no fault. -/
theorem c10_all_null_multi_value (sep : Char) (cells : List (Option String))
    (h : ∀ c ∈ cells, c = none) :
    profileMultiValue sep cells =
      { min_values_per_row := 0, max_values_per_row := 0, avg_values_per_row := 0,
        total_distinct_values := 0, top_10_values := [] } := by
  have hnn : nonNullValues cells = [] := by
    rw [nonNullValues, List.filterMap_eq_nil_iff]
    intro a ha
    rw [h a ha]
    rfl
  unfold profileMultiValue tokenCountsPerRow flattenedTokens
  rw [hnn]
  simp [distinctFirstSeen, groupCounts, sortDesc]

/-- C10 (witness): the all-null two-row column produces the zero
profile. -/
theorem c10_witness :
    (∀ c ∈ ([none, none] : List (Option String)), c = none) ∧
    profileMultiValue ',' [none, none] =
      { min_values_per_row := 0, max_values_per_row := 0, avg_values_per_row := 0,
        total_distinct_values := 0, top_10_values := [] } :=
  ⟨by decide, c10_all_null_multi_value ',' [none, none] (by decide)⟩

/-- C4 (amended): a configured key column absent from the dataset's
columns does not merely suppress key validation — `df[pk]` raises
`KeyError`, so the whole dataset's profiling aborts and no DatasetProfile
is produced, even when every column would profile fine on its own. -/
theorem c4_missing_key_column_raises (name : String) (f : Frame) (cfg : DatasetConfig)
    (pk : String) (hpk : cfg.primary_key = some pk) (habs : pk ∉ f.colNames)
    (hcols : ∀ p ∈ f.columns, p.2 ≠ ([] : List (Option String))) :
    profile_dataset_manual name f cfg = Except.error ("KeyError: " ++ pk) := by
  obtain ⟨t, ht⟩ := profileColumns_ok f.columns hcols
  have hcol : f.col? pk = none := Frame.col_eq_none habs
  simp only [profile_dataset_manual, ht, hpk, hcol]

/-- C4 (counterexample): a one-column dataset configured with the absent
key column "k" makes profiling return the `KeyError` instead of a
profile without a KeyValidationResult, although the column itself
profiles fine. -/
theorem c4_missing_key_aborts_dataset :
    profile_dataset_manual "d" ⟨[("c", [some "v"])]⟩
      ⟨"desc", "f.tsv", some "k", none, [], ','⟩ = Except.error "KeyError: k" ∧
    (profileColumn [some "v"]).isOk = true :=
  ⟨rfl, rfl⟩

/-- C4 (witness): the amended statement applied to the concrete
one-column dataset with the absent key "k". -/
theorem c4_witness :
    ((⟨"desc", "f.tsv", some "k", none, [], ','⟩ : DatasetConfig).primary_key = some "k") ∧
    ("k" ∉ (⟨[("c", [some "v"])]⟩ : Frame).colNames) ∧
    (∀ p ∈ (⟨[("c", [some "v"])]⟩ : Frame).columns, p.2 ≠ ([] : List (Option String))) ∧
    profile_dataset_manual "w" ⟨[("c", [some "v"])]⟩
      ⟨"desc", "f.tsv", some "k", none, [], ','⟩ = Except.error ("KeyError: " ++ "k") :=
  ⟨rfl, by decide, by decide,
    c4_missing_key_column_raises "w" _ _ "k" rfl (by decide) (by decide)⟩

/-- C7 (amended): when every dataset that loads also profiles without
error, the catalog loop skips the datasets whose source the loader
reports missing and returns exactly the profiles of the loaded datasets,
keyed by dataset name, in catalog order, with no error placeholders.
(Without that proviso a loaded dataset whose profiling raises aborts the
whole run — see the counterexample.) -/
theorem c7_run_skips_missing_sources (loader : String → DatasetConfig → Option Frame)
    (catalog : List (String × DatasetConfig))
    (h : ∀ e ∈ catalog, ∀ f, loader e.1 e.2 = some f →
      (profile_dataset_manual e.1 f e.2).isOk = true) :
    runProfiling loader catalog = Except.ok (loadedProfiles loader catalog) :=
  runProfiling_ok loader catalog h

/-- C7 (counterexample): a catalog whose single dataset loads but whose
configured key column is absent makes the run abort with `KeyError`
instead of returning the collection of loaded profiles. -/
theorem c7_loaded_dataset_can_abort_run :
    runProfiling (fun _ _ => some ⟨[("c", [some "v"])]⟩)
      [("d", ⟨"desc", "f.tsv", some "k", none, [], ','⟩)] =
      Except.error "KeyError: k" ∧
    (fun (_ : String) (_ : DatasetConfig) => some (⟨[("c", [some "v"])]⟩ : Frame)) "d"
      ⟨"desc", "f.tsv", some "k", none, [], ','⟩ = some ⟨[("c", [some "v"])]⟩ :=
  ⟨rfl, rfl⟩

/-- C7 (witness): on a one-entry catalog whose source is missing the run
returns the empty collection. -/
theorem c7_witness :
    (∀ e ∈ ([("d", ⟨"desc", "f.tsv", none, none, [], ','⟩)] : List (String × DatasetConfig)),
      ∀ f : Frame, (fun (_ : String) (_ : DatasetConfig) => (none : Option Frame)) e.1 e.2 =
        some f → (profile_dataset_manual e.1 f e.2).isOk = true) ∧
    runProfiling (fun _ _ => none) [("d", ⟨"desc", "f.tsv", none, none, [], ','⟩)] =
      Except.ok (loadedProfiles (fun _ _ => none)
        [("d", ⟨"desc", "f.tsv", none, none, [], ','⟩)]) :=
  ⟨fun _ _ _ hf => Option.noConfusion hf,
    c7_run_skips_missing_sources _ _ (fun _ _ _ hf => Option.noConfusion hf)⟩

/-- C8 (amended): the in-memory engine's top-10 list has length at most
10, pairs each token with its exact occurrence count in the flattened
sequence, and is sorted by strictly descending count with ties in
first-seen order (under the stable-sort model of `value_counts`); every
admissible output of the distributed engine's top-10 has length at most
10, non-increasing counts and exact group counts, but its tie order is
unspecified. -/
theorem c8_top10_characterization (sep : Char) (cells : List (Option String))
    (res : List (String × ℕ)) :
    ((profileMultiValue sep cells).top_10_values.length ≤ 10 ∧
      (∀ p ∈ (profileMultiValue sep cells).top_10_values,
        p.2 = (flattenedTokens sep cells).countP (fun y => y = p.1)) ∧
      (profileMultiValue sep cells).top_10_values.Pairwise
        (fun a b => b.2 < a.2 ∨ (a.2 = b.2 ∧
          (flattenedTokens sep cells).indexOf a.1 < (flattenedTokens sep cells).indexOf b.1))) ∧
    (IsSparkTop10 (sparkKeptTokens sep cells) res →
      res.length ≤ 10 ∧ res.Pairwise (fun a b => b.2 ≤ a.2) ∧
      ∀ p ∈ res, p.2 = (sparkKeptTokens sep cells).countP (fun y => y = p.1)) := by
  constructor
  · have htop : (profileMultiValue sep cells).top_10_values =
        (sortDesc (groupCounts (flattenedTokens sep cells))).take 10 := rfl
    rw [htop]
    have hpair : (groupCounts (flattenedTokens sep cells)).Pairwise
        (fun a b => (flattenedTokens sep cells).indexOf a.1 <
          (flattenedTokens sep cells).indexOf b.1) := by
      rw [groupCounts, List.pairwise_map]
      exact distinctFirstSeen_pairwise_indexOf (flattenedTokens sep cells)
    refine ⟨List.length_take_le _ _, ?_, ?_⟩
    · intro p hp
      have hp2 : p ∈ sortDesc (groupCounts (flattenedTokens sep cells)) :=
        List.take_subset _ _ hp
      exact mem_groupCounts_count _ _ ((mem_sortDesc _ _).mp hp2)
    · exact (pairwise_sortDesc (fun g => (flattenedTokens sep cells).indexOf g.1) _
        hpair).sublist (List.take_sublist _ _)
  · rintro ⟨full, hperm, hsort, rfl⟩
    refine ⟨List.length_take_le _ _, hsort.sublist (List.take_sublist _ _), ?_⟩
    intro p hp
    have hp2 : p ∈ full := List.take_subset _ _ hp
    exact mem_groupCounts_count _ _ (hperm.mem_iff.mp hp2)

/-- C8 (counterexample): on the tokens `["a", "b"]` (both of count 1) the
reversed order `[("b",1), ("a",1)]` is an admissible distributed-engine
top-10, and it violates the claimed first-seen tie order. -/
theorem c8_spark_tie_order_unspecified :
    IsSparkTop10 (sparkKeptTokens ',' [some "a", some "b"]) [("b", 1), ("a", 1)] ∧
    ¬ ([("b", 1), ("a", 1)] : List (String × ℕ)).Pairwise
        (fun a b => b.2 < a.2 ∨ (a.2 = b.2 ∧
          (sparkKeptTokens ',' [some "a", some "b"]).indexOf a.1 <
            (sparkKeptTokens ',' [some "a", some "b"]).indexOf b.1)) := by
  have hk : sparkKeptTokens ',' [some "a", some "b"] = ["a", "b"] := by decide
  have hg : groupCounts (sparkKeptTokens ',' [some "a", some "b"]) = [("a", 1), ("b", 1)] := by
    rw [hk]
    simp [groupCounts, distinctFirstSeen]
  constructor
  · refine ⟨[("b", 1), ("a", 1)], ?_, by decide, rfl⟩
    rw [hg]
    decide
  · simp only [hk]
    decide

/-- C8 (witness): the amended statement applied to the single-cell column
`"a,a"` and the admissible distributed output `[("a", 2)]`. -/
theorem c8_witness :
    (((profileMultiValue ',' [some "a,a"]).top_10_values.length ≤ 10 ∧
      (∀ p ∈ (profileMultiValue ',' [some "a,a"]).top_10_values,
        p.2 = (flattenedTokens ',' [some "a,a"]).countP (fun y => y = p.1)) ∧
      (profileMultiValue ',' [some "a,a"]).top_10_values.Pairwise
        (fun a b => b.2 < a.2 ∨ (a.2 = b.2 ∧
          (flattenedTokens ',' [some "a,a"]).indexOf a.1 <
            (flattenedTokens ',' [some "a,a"]).indexOf b.1))) ∧
    (([("a", 2)] : List (String × ℕ)).length ≤ 10 ∧
      ([("a", 2)] : List (String × ℕ)).Pairwise (fun a b => b.2 ≤ a.2) ∧
      ∀ p ∈ ([("a", 2)] : List (String × ℕ)),
        p.2 = (sparkKeptTokens ',' [some "a,a"]).countP (fun y => y = p.1))) := by
  have hg : groupCounts (sparkKeptTokens ',' [some "a,a"]) = [("a", 2)] := by
    have hk : sparkKeptTokens ',' [some "a,a"] = ["a", "a"] := by decide
    rw [hk]
    simp [groupCounts, distinctFirstSeen]
  have hIs : IsSparkTop10 (sparkKeptTokens ',' [some "a,a"]) [("a", 2)] := by
    refine ⟨[("a", 2)], ?_, by decide, rfl⟩
    rw [hg]
  exact ⟨(c8_top10_characterization ',' [some "a,a"] [("a", 2)]).1,
    (c8_top10_characterization ',' [some "a,a"] [("a", 2)]).2 hIs⟩
